import Mathlib

/-!
# Verification of the Naver blog batch-posting core

A shallow embedding of the data model and the control flow of the
batch-posting program:

* `core/models/blog_post.py` — `BlogContent`, `BlogPostEntry`, `PostResult`,
  `BatchPostResult` and their operations;
* `adapters/secrets/credential_manager.py` — `ResolvedCredentials`,
  `CredentialManager.resolve_password`;
* `adapters/browser/driver_adapter.py` — `BrowserAdapter.close`;
* `src/naver_login.py` — the login classification and the manual-login wait;
* `src/blog_writer_cdp.py` — the `write_post` retry loop;
* `automation/naver_blog/orchestrator.py` — filtering, grouping by account,
  per-account session handling and report aggregation.

External effects (the browser, the process environment, wall-clock time)
are modelled as explicit inputs; wall-clock timestamps are abstracted as
the empty string since no verified property depends on them.  Python
strings are modelled as `String`, with the handful of Python string
operations the code uses re-implemented over `List Char`.
-/

set_option linter.unusedVariables false

namespace NaverBlog

/-! ## Python string primitives -/

/-- Characters accepted by Python `str.strip()` with no argument
(`str.isspace` over the ASCII / Latin-1 range that can occur here). -/
def pySpace (c : Char) : Bool :=
  c = ' ' || c = '\t' || c = '\n' || c = '\r' ||
  c = Char.ofNat 11 || c = Char.ofNat 12 ||
  c = Char.ofNat 28 || c = Char.ofNat 29 || c = Char.ofNat 30 ||
  c = Char.ofNat 31 || c = Char.ofNat 133 || c = Char.ofNat 160

/-- Python `s.strip()`: drop leading and trailing whitespace. -/
def pyStrip (s : String) : String :=
  String.mk (((s.toList.dropWhile pySpace).reverse.dropWhile pySpace).reverse)

/-- Python `s.split(sep)` for a one-character separator: keeps empty pieces,
`""` splits to `[""]`. -/
def splitOnChar (sep : Char) : List Char → List (List Char)
  | [] => [[]]
  | a :: rest =>
    let r := splitOnChar sep rest
    if a = sep then [] :: r
    else
      match r with
      | [] => [[a]]
      | g :: gs => (a :: g) :: gs

/-- Python `s.replace(c, r)` for a one-character pattern. -/
def replaceChar (c : Char) (r : List Char) (s : List Char) : List Char :=
  match s with
  | [] => []
  | a :: rest => (if a = c then r else [a]) ++ replaceChar c r rest

/-- Does `hay` start with `pat`? -/
def startsWithList (pat hay : List Char) : Bool :=
  match pat, hay with
  | [], _ => true
  | _ :: _, [] => false
  | p :: ps, h :: hs => p = h && startsWithList ps hs

/-- Python `pat in hay` substring test, over char lists. -/
def containsSub (hay pat : List Char) : Bool :=
  match hay with
  | [] => startsWithList pat []
  | _ :: rest => startsWithList pat (hay) || containsSub rest pat

/-- Python `pat in hay` substring test on strings. -/
def strContains (hay pat : String) : Bool :=
  containsSub hay.toList pat.toList

/-- Python `s.lower()` (ASCII). -/
def pyLower (s : String) : String := String.mk (s.toList.map Char.toLower)

/-- Python `s.upper()` (ASCII). -/
def pyUpper (s : String) : String := String.mk (s.toList.map Char.toUpper)

/-! ## `core/models/blog_post.py` — data model

`BlogContent` carries the full fixed JSON schema (`sns_upload_cont`);
all fields are strings that default to `""`. -/

structure BlogContent where
  blog_title : String := ""
  blog_title_img : String := ""
  blog_top_word : String := ""
  blog_top_word2 : String := ""
  blog_title_img2 : String := ""
  blog_basic : String := ""
  blog_feature : String := ""
  blog_title_img3 : String := ""
  site_title1 : String := ""
  site_cont1 : String := ""
  site_img1 : String := ""
  site_quote : String := ""
  site_title2 : String := ""
  site_cont2 : String := ""
  site_img2 : String := ""
  site_addr : String := ""
  site_addr2 : String := ""
  site_cll_img : String := ""
  site_time : String := ""
  site_bus : String := ""
  site_tag : String := ""
  deriving DecidableEq, Repr

/-- `BlogContent.get_tags`: `if not self.site_tag: return []`, split the tag
field on `,`, strip each piece, drop empty pieces. -/
def BlogContent.get_tags (c : BlogContent) : List String :=
  if c.site_tag = "" then []
  else
    let tags := (splitOnChar ',' c.site_tag.toList).map (fun t => pyStrip (String.mk t))
    tags.filter (fun t => t ≠ "")

/-- `BlogPostEntry`: one job from the JSON input. -/
structure BlogPostEntry where
  sns_id : String
  sns_pw : String
  sns_upload_cont : BlogContent
  index : Nat := 0
  deriving DecidableEq, Repr

/-- `PostResult`: the recorded outcome of one job. -/
structure PostResult where
  entry : BlogPostEntry
  success : Bool
  error_message : String := ""
  post_url : String := ""
  timestamp : String := ""
  deriving DecidableEq, Repr

/-- `BatchPostResult`: counters plus the ordered list of per-job results. -/
structure BatchPostResult where
  total : Nat := 0
  successful : Nat := 0
  failed : Nat := 0
  skipped : Nat := 0
  results : List PostResult := []
  deriving DecidableEq, Repr

/-- A freshly constructed `BatchPostResult()`. -/
def emptyBatch : BatchPostResult := {}

/-- `BatchPostResult.add_result`: append the result and update the counters. -/
def BatchPostResult.add_result (b : BatchPostResult) (r : PostResult) : BatchPostResult :=
  { b with
    results := b.results ++ [r]
    total := b.total + 1
    successful := if r.success then b.successful + 1 else b.successful
    failed := if r.success then b.failed else b.failed + 1 }

/-- `BatchPostResult.add_skipped`: bump the skipped counter only. -/
def BatchPostResult.add_skipped (b : BatchPostResult) : BatchPostResult :=
  { b with skipped := b.skipped + 1 }

/-! ## `adapters/secrets/credential_manager.py` -/

/-- `ResolvedCredentials`: resolved secret with source tracking.
`masked_pw` is what `__post_init__` computes. -/
structure ResolvedCredentials where
  sns_id : String
  sns_pw : String
  source : String
  masked_pw : String
  deriving DecidableEq, Repr

/-- Construct a `ResolvedCredentials`, running the `__post_init__` logic:
start from the default mask `"****"` and overwrite it with
`"*" * min(len(pw), 8)` when the password is truthy (non-empty). -/
def mkResolvedCredentials (id pw source : String) : ResolvedCredentials :=
  { sns_id := id
    sns_pw := pw
    source := source
    masked_pw := if pw ≠ "" then String.mk (List.replicate (min pw.toList.length 8) '*') else "****" }

/-- `CredentialManager`: the secrets file is loaded once at construction into
`_secrets_cache`, modelled as the resulting key-value dictionary. -/
structure CredentialManager where
  secretsCache : List (String × String) := []
  deriving DecidableEq, Repr

/-- `CredentialManager._sanitize_email`:
`email.replace('@', '_at_').replace('.', '_')`, then every character outside
`[a-zA-Z0-9_]` replaced by `_`, then upper-cased. -/
def sanitize_email (email : String) : String :=
  let s1 := replaceChar '@' "_at_".toList email.toList
  let s2 := replaceChar '.' "_".toList s1
  let s3 := s2.map (fun c => if c.isAlphanum || c = '_' then c else '_')
  pyUpper (String.mk s3)

/-- The environment variable name `NBLOG_PW_<sanitized email>`. -/
def env_var_name (email : String) : String :=
  "NBLOG_PW_" ++ sanitize_email email

/-- The process environment, `os.environ.get`. -/
def ProcEnv : Type := String → Option String

/-- `CredentialManager.resolve_password`:
1. environment variable, taken only when its value is truthy (non-empty);
2. secrets file, taken on key presence alone;
3. the entry's own `sns_pw`, taken when truthy;
4. otherwise an empty password with source `'none'`. -/
def resolve_password (env : ProcEnv) (cm : CredentialManager) (entry : BlogPostEntry) :
    ResolvedCredentials :=
  let sns_id := entry.sns_id
  let env_pw := (env (env_var_name sns_id)).getD ""
  if env_pw ≠ "" then mkResolvedCredentials sns_id env_pw "env"
  else
    match List.lookup sns_id cm.secretsCache with
    | some v => mkResolvedCredentials sns_id v "secrets_file"
    | none =>
      if entry.sns_pw ≠ "" then mkResolvedCredentials sns_id entry.sns_pw "json"
      else mkResolvedCredentials sns_id "" "none"

/-- `CredentialManager.mask_password`: `"(empty)"` for an empty password,
otherwise `"*" * min(len, 8)`. -/
def mask_password (password : String) : String :=
  if password = "" then "(empty)"
  else String.mk (List.replicate (min password.toList.length 8) '*')

/-! ## `src/naver_login.py` — login classification and manual-login wait -/

/-- `NaverLogin._check_login_success`, classifying `driver.current_url` after
the submit: a URL containing `captcha` or `protect` (case-insensitive) is a
failure; a URL no longer containing `nidlogin` is a success; otherwise the
method returns `False` (whether or not an error message element is shown,
both branches of the error-message check fall through to `return False`). -/
def check_login_success (current_url : String) : Bool :=
  if strContains (pyLower current_url) "captcha" || strContains (pyLower current_url) "protect" then
    false
  else if !(strContains current_url "nidlogin") then true
  else false

/-- `NaverLogin._wait_for_manual_login`: poll `driver.current_url` every 2s
while less than 300s have elapsed — 150 polls — returning `True` the moment
the URL no longer contains `nidlogin` and `False` on timeout.  `urls n` is
the URL observed at the `n`-th poll; `fuel` is the number of polls left. -/
def wait_for_manual_login (urls : Nat → String) : Nat → Bool
  | 0 => false
  | fuel + 1 =>
    if !(strContains (urls 0) "nidlogin") then true
    else wait_for_manual_login (fun i => urls (i + 1)) fuel

/-- Number of polls the 300s / 2s manual-login wait performs. -/
def manualLoginPolls : Nat := 150

/-- The observations one `NaverLogin.login` call makes of the outside world:
whether the chosen credential-entry strategy located its fields and
submitted (`fieldsFound`), the post-submit URL, and the URLs seen by the
manual-login wait's successive polls. -/
structure LoginWorld where
  fieldsFound : Bool
  postSubmitUrl : String
  pollUrls : Nat → String

/-- `NaverLogin.login`: run the entry strategy and `_check_login_success`;
on success return `True`, otherwise fall into `_wait_for_manual_login`.
Returns `(result, enteredManualWait)`. -/
def login_run (w : LoginWorld) : Bool × Bool :=
  let success := w.fieldsFound && check_login_success w.postSubmitUrl
  if success then (true, false)
  else (wait_for_manual_login w.pollUrls manualLoginPolls, true)

/-! ## `src/blog_writer_cdp.py` — the `write_post` retry loop -/

/-- One attempt of the navigate → title → body → publish → verify pipeline.
Each flag tells whether the corresponding step of that attempt succeeded;
`raises` covers an exception escaping anywhere inside the attempt (caught
by the loop's `except`, which moves on to the next attempt). -/
structure Attempt where
  navOk : Bool
  titleOk : Bool
  contentOk : Bool
  publishOk : Bool
  verifyOk : Bool
  raises : Bool
  deriving DecidableEq, Repr

/-- An attempt leads to `return True` exactly when no exception escaped and
every pipeline step — navigation, title, body, publish, verify — succeeded
(the draft-popup and help-popup steps are unconditionally best-effort). -/
def attemptSucceeds (a : Attempt) : Bool :=
  !a.raises && a.navOk && a.titleOk && a.contentOk && a.publishOk && a.verifyOk

/-- The `for attempt in range(max_retries + 1)` loop of `write_post`,
run from attempt number `i` with `fuel` attempts left.  Returns the result
and the number of attempts actually executed. -/
def write_post_from (env : Nat → Attempt) : Nat → Nat → Bool × Nat
  | _, 0 => (false, 0)
  | i, fuel + 1 =>
    if attemptSucceeds (env i) then (true, 1)
    else
      let r := write_post_from env (i + 1) fuel
      (r.1, r.2 + 1)

/-- `NaverBlogWriterCDP.write_post` with retry bound `max_retries`:
result of running the whole pipeline up to `max_retries + 1` times,
where `env i` describes what the `i`-th attempt would observe. -/
def write_post (env : Nat → Attempt) (max_retries : Nat) : Bool :=
  (write_post_from env 0 (max_retries + 1)).1

/-- Number of attempts `write_post` actually executes. -/
def write_post_attempts (env : Nat → Attempt) (max_retries : Nat) : Nat :=
  (write_post_from env 0 (max_retries + 1)).2

/-! ## `adapters/browser/driver_adapter.py` — `BrowserAdapter.close` -/

/-- The adapter's mutable state: `self.driver`, `None` or a live handle. -/
structure BrowserAdapterState where
  driver : Option Unit
  deriving DecidableEq, Repr

/-- `BrowserAdapter.close`: if a driver is present, `try: driver.quit()
except Exception: pass`, then set `self.driver = None`.  `quitOutcome` is
what `driver.quit()` would do (return or raise); the result is an `Except`
so that "never raises" is expressible. -/
def browser_close (st : BrowserAdapterState) (quitOutcome : Except String Unit) :
    Except String BrowserAdapterState :=
  match st.driver with
  | none => Except.ok st
  | some _ =>
    match quitOutcome with
    | Except.ok _ => Except.ok { driver := none }
    | Except.error _ => Except.ok { driver := none }

/-! ## `automation/naver_blog/orchestrator.py` — batch orchestration

The browser, login and writer behaviour for one account is summarised by an
`AccountEnv`; browser-lifecycle calls are recorded as an event trace so that
"session never opened" and "session always closed" are observable. -/

/-- Browser-lifecycle events emitted while processing account groups. -/
inductive Ev where
  | created (acct : String)
  | loginCall (acct : String)
  | closed (acct : String)
  deriving DecidableEq, Repr

/-- What the outside world does for one account group: whether
`create_driver` raises (and with what message), whether `_login` returns
`True`, and what each entry's `_post_single` call observes —
`postRaises idx` i means the writer call raised (message `raiseMsg idx`,
caught inside `_post_single`), otherwise `attempts idx` describes the
`write_post` attempts for the entry with index `idx`. -/
structure AccountEnv where
  createFails : Bool
  createMsg : String
  loginSucceeds : Bool
  postRaises : Nat → Bool
  raiseMsg : Nat → String
  attempts : Nat → Nat → Attempt

/-- The failed `PostResult` recorded when an account has no credentials. -/
def noCredResult (e : BlogPostEntry) : PostResult :=
  { entry := e, success := false, error_message := "No credentials available" }

/-- The failed `PostResult` recorded for each entry when login fails. -/
def loginFailedResult (e : BlogPostEntry) : PostResult :=
  { entry := e, success := false, error_message := "Login failed" }

/-- The failed `PostResult` appended by the `except` branch of
`_post_account_entries` for an entry with no result yet. -/
def unexpectedResult (msg : String) (e : BlogPostEntry) : PostResult :=
  { entry := e, success := false, error_message := "Unexpected error: " ++ msg }

/-- `BatchPostingOrchestrator._post_single`: run the writer inside
`try/except`; an exception becomes a failed result carrying `str(e)`,
otherwise `write_post` with the configured `max_retries` decides the
success flag and the error message is `""` or `"Post failed"`. -/
def post_single (aenv : AccountEnv) (max_retries : Nat) (e : BlogPostEntry) : PostResult :=
  if aenv.postRaises e.index then
    { entry := e, success := false, error_message := aenv.raiseMsg e.index }
  else
    let ok := write_post (aenv.attempts e.index) max_retries
    { entry := e, success := ok, error_message := if ok then "" else "Post failed" }

/-- `BatchPostingOrchestrator._post_account_entries`: create the browser and
login inside `try`; on login failure every entry is marked `Login failed`
(the `finally` still closes); on success each entry gets its
`_post_single` result; if `create_driver` raises, the `except` branch
appends an `Unexpected error` result for every entry that has none yet,
and the `finally` branch always calls `close` on the adapter. -/
def post_account_entries (aenv : AccountEnv) (max_retries : Nat) (acct : String)
    (creds : ResolvedCredentials) (entries : List BlogPostEntry) :
    List PostResult × List Ev :=
  if aenv.createFails then
    -- `self._browser_adapter` was assigned before `create_driver` raised,
    -- so the `finally` branch still calls `close()`.
    let resultsSoFar : List PostResult := []
    let fillIn := (entries.filter
      (fun e => !(resultsSoFar.any (fun r => r.entry.index == e.index)))).map
      (unexpectedResult aenv.createMsg)
    (resultsSoFar ++ fillIn, [Ev.closed acct])
  else if !aenv.loginSucceeds then
    (entries.map loginFailedResult, [Ev.created acct, Ev.loginCall acct, Ev.closed acct])
  else
    (entries.map (post_single aenv max_retries),
     [Ev.created acct, Ev.loginCall acct, Ev.closed acct])

/-- `BatchPostingOrchestrator._filter_entries`: first the
`account_index is not None` filter on `entry.index`, then the truthy
`filter_email` filter on `entry.sns_id`. -/
def filter_entries (entries : List BlogPostEntry) (filter_email : Option String)
    (account_index : Option Nat) : List BlogPostEntry :=
  let r1 :=
    match account_index with
    | none => entries
    | some i => entries.filter (fun e => e.index == i)
  match filter_email with
  | none => r1
  | some s => if s = "" then r1 else r1.filter (fun e => e.sns_id == s)

/-- One step of `_group_by_account`'s dict building: append the entry to its
account's list, creating the key at the end on first occurrence
(Python dicts preserve insertion order). -/
def addToGroups : List (String × List BlogPostEntry) → BlogPostEntry →
    List (String × List BlogPostEntry)
  | [], e => [(e.sns_id, [e])]
  | (k, g) :: rest, e =>
    if k = e.sns_id then (k, g ++ [e]) :: rest
    else (k, g) :: addToGroups rest e

/-- `BatchPostingOrchestrator._group_by_account`. -/
def group_by_account (entries : List BlogPostEntry) : List (String × List BlogPostEntry) :=
  entries.foldl addToGroups []

/-- The whole-run environment: the process environment seen by the
credential manager, the per-account browser worlds, and the configured
`max_retries`. -/
structure OrchEnv where
  procEnv : ProcEnv
  accounts : String → AccountEnv
  maxRetries : Nat

/-- The body of `post_all`'s per-group loop: resolve the credential from
the group's first entry; with an empty password record a
`No credentials available` failure per entry and touch no browser,
otherwise run `_post_account_entries`. -/
def groupOutcome (oenv : OrchEnv) (cm : CredentialManager) :
    String × List BlogPostEntry → List PostResult × List Ev
  | (_, []) => ([], [])
  | (k, first :: rest) =>
    let creds := resolve_password oenv.procEnv cm first
    if creds.sns_pw = "" then ((first :: rest).map noCredResult, [])
    else post_account_entries (oenv.accounts k) oenv.maxRetries k creds (first :: rest)

/-- All per-job results of a run, group after group in dict order. -/
def allGroupResults (oenv : OrchEnv) (cm : CredentialManager) :
    List (String × List BlogPostEntry) → List PostResult
  | [] => []
  | kg :: rest => (groupOutcome oenv cm kg).1 ++ allGroupResults oenv cm rest

/-- All browser-lifecycle events of a run, group after group in dict order. -/
def allGroupEvents (oenv : OrchEnv) (cm : CredentialManager) :
    List (String × List BlogPostEntry) → List Ev
  | [] => []
  | kg :: rest => (groupOutcome oenv cm kg).2 ++ allGroupEvents oenv cm rest

/-- `BatchPostingOrchestrator.post_all`: filter, return the empty report if
nothing is left, otherwise group by account and fold every produced
`PostResult` into the report with `add_result`, in order.  The returned
trace records the browser-lifecycle calls. -/
def post_all (oenv : OrchEnv) (cm : CredentialManager) (entries : List BlogPostEntry)
    (filter_email : Option String) (account_index : Option Nat) :
    BatchPostResult × List Ev :=
  let fes := filter_entries entries filter_email account_index
  if fes.length = 0 then (emptyBatch, [])
  else
    let gs := group_by_account fes
    ((allGroupResults oenv cm gs).foldl BatchPostResult.add_result emptyBatch,
     allGroupEvents oenv cm gs)

/-! ## Report dictionaries (`to_dict`) -/

/-- The dictionary produced by `PostResult.to_dict` (fixed keys, so a
structure with one field per key). -/
structure PostResultDict where
  index : Nat
  sns_id : String
  blog_title : String
  success : Bool
  error_message : String
  post_url : String
  timestamp : String
  deriving DecidableEq, Repr

/-- `PostResult.to_dict`. -/
def PostResult.to_dict (r : PostResult) : PostResultDict :=
  { index := r.entry.index
    sns_id := r.entry.sns_id
    blog_title := r.entry.sns_upload_cont.blog_title
    success := r.success
    error_message := r.error_message
    post_url := r.post_url
    timestamp := r.timestamp }

/-- The `summary` sub-dictionary of `BatchPostResult.to_dict`. -/
structure BatchSummary where
  total : Nat
  successful : Nat
  failed : Nat
  skipped : Nat
  deriving DecidableEq, Repr

/-- The dictionary produced by `BatchPostResult.to_dict`. -/
structure BatchDict where
  summary : BatchSummary
  results : List PostResultDict
  deriving DecidableEq, Repr

/-- `BatchPostResult.to_dict`. -/
def BatchPostResult.to_dict (b : BatchPostResult) : BatchDict :=
  { summary :=
      { total := b.total, successful := b.successful
        failed := b.failed, skipped := b.skipped }
    results := b.results.map PostResult.to_dict }

/-! ## Specification-side definitions (for refinement comparisons) -/

/-- Modelled from the spec's words for tag normalization: split the tag
field on commas, trim surrounding whitespace from each piece, drop empty
pieces, preserve the order of the rest.  To be compared with
`BlogContent.get_tags`. -/
def getTagsSpec (tagField : String) : List String :=
  (((splitOnChar ',' tagField.toList).map (fun t => pyStrip (String.mk t))).filter
    (fun t => t ≠ ""))

/-- The three credential sources of the spec, in precedence order. -/
inductive CredSource where
  | envSrc
  | storeSrc
  | inlineSrc
  deriving DecidableEq, Repr

/-- Modelled from the amended spec's words: what each source yields for a
job — the environment override only when the variable's value is non-empty,
the secrets store by key presence alone (even an empty stored value), the
job's inline secret only when non-empty. -/
def sourceYields (env : ProcEnv) (cm : CredentialManager) (e : BlogPostEntry) :
    CredSource → Option (String × String)
  | CredSource.envSrc =>
    match env (env_var_name e.sns_id) with
    | some p => if p = "" then none else some (p, "env")
    | none => none
  | CredSource.storeSrc =>
    (List.lookup e.sns_id cm.secretsCache).map (fun v => (v, "secrets_file"))
  | CredSource.inlineSrc =>
    if e.sns_pw = "" then none else some (e.sns_pw, "json")

/-- Modelled from the amended spec's words: try the sources in precedence
order and take the first that applies; if none applies, provenance `none`
with an empty secret (never an error).  To be compared with
`resolve_password`. -/
def resolveSpec (env : ProcEnv) (cm : CredentialManager) (e : BlogPostEntry) :
    ResolvedCredentials :=
  match [CredSource.envSrc, CredSource.storeSrc, CredSource.inlineSrc].findSome?
      (sourceYields env cm e) with
  | some pv => mkResolvedCredentials e.sns_id pv.1 pv.2
  | none => mkResolvedCredentials e.sns_id "" "none"

/-! ## Mutation sequences over `BatchPostResult` -/

/-- One mutating call on a `BatchPostResult`. -/
inductive BatchOp where
  | addResultOp (r : PostResult)
  | addSkippedOp
  deriving Repr

/-- Apply a sequence of `add_result` / `add_skipped` calls. -/
def runOps (b : BatchPostResult) : List BatchOp → BatchPostResult
  | [] => b
  | BatchOp.addResultOp r :: ops => runOps (b.add_result r) ops
  | BatchOp.addSkippedOp :: ops => runOps b.add_skipped ops

/-- The counter consistency invariant of `BatchPostResult`. -/
def batchInv (b : BatchPostResult) : Prop :=
  b.total = b.successful + b.failed ∧ b.total = b.results.length

/-! ## Secret-independence relations for the report -/

/-- Two entries that agree on everything except (possibly) the secret. -/
def samePublicEntry (e1 e2 : BlogPostEntry) : Prop :=
  e1.sns_id = e2.sns_id ∧ e1.index = e2.index ∧ e1.sns_upload_cont = e2.sns_upload_cont

/-- Two per-job results of runs that differ only in a job's secret but had
the same outcomes. -/
def samePublicResult (r1 r2 : PostResult) : Prop :=
  samePublicEntry r1.entry r2.entry ∧ r1.success = r2.success ∧
  r1.error_message = r2.error_message ∧ r1.post_url = r2.post_url ∧
  r1.timestamp = r2.timestamp

/-! ## Well-formedness of account groups -/

/-- The keys of a grouping, in order. -/
def groupKeys (gs : List (String × List BlogPostEntry)) : List String :=
  gs.map Prod.fst

/-- All entries stored under key `k`, in order. -/
def groupVal : List (String × List BlogPostEntry) → String → List BlogPostEntry
  | [], _ => []
  | (k1, g) :: rest, k => (if k1 = k then g else []) ++ groupVal rest k

/-- Every entry of a group carries the group's account id. -/
def wfGroups (gs : List (String × List BlogPostEntry)) : Prop :=
  ∀ kg ∈ gs, ∀ e ∈ kg.2, e.sns_id = kg.1

/-! ## Concrete inputs used by witnesses and counterexamples -/

/-- An empty credential manager (no secrets file loaded). -/
def emptyCM : CredentialManager := {}

/-- An attempt in which every pipeline step fails. -/
def attemptFail : Attempt :=
  { navOk := false, titleOk := false, contentOk := false
    publishOk := false, verifyOk := false, raises := true }

/-- An attempt in which every pipeline step succeeds. -/
def attemptOk : Attempt :=
  { navOk := true, titleOk := true, contentOk := true
    publishOk := true, verifyOk := true, raises := false }

/-- Scenario D: attempts 0 and 1 fail, attempt 2 succeeds. -/
def scenarioDEnv : Nat → Attempt := fun i => if i < 2 then attemptFail else attemptOk

/-- An account world in which the browser cannot even be created. -/
def idleAccount : AccountEnv :=
  { createFails := true, createMsg := "boom", loginSucceeds := false
    postRaises := fun _ => false, raiseMsg := fun _ => ""
    attempts := fun _ _ => attemptFail }

/-- A login observation on a CAPTCHA surface: the post-submit URL is a
bot-challenge location (it contains `captcha`, and still `nidlogin`), and
every later poll sees the same URL. -/
def captchaWorld : LoginWorld :=
  { fieldsFound := true
    postSubmitUrl := "https://nid.naver.com/nidlogin.login?mode=captcha"
    pollUrls := fun _ => "https://nid.naver.com/nidlogin.login?mode=captcha" }

/-- A secrets store that maps the account to an empty string. -/
def emptyValueCM : CredentialManager := { secretsCache := [("user@example.com", "")] }

/-- A job with no inline secret. -/
def entryNoPw : BlogPostEntry :=
  { sns_id := "user@example.com", sns_pw := "", sns_upload_cont := {}, index := 0 }

/-- A job carrying a non-empty inline secret. -/
def entryInlinePw : BlogPostEntry :=
  { sns_id := "user@example.com", sns_pw := "inline-secret", sns_upload_cont := {}, index := 0 }

/-- A process environment with no variables set. -/
def noEnv : ProcEnv := fun _ => none

/-- An orchestrator environment: nothing resolvable, browsers unusable. -/
def bareOrchEnv : OrchEnv :=
  { procEnv := noEnv, accounts := fun _ => idleAccount, maxRetries := 2 }

/-- Jobs of two accounts interleaved in the input order. -/
def entA0 : BlogPostEntry := { sns_id := "a@x.c", sns_pw := "", sns_upload_cont := {}, index := 0 }

/-- Second job, a different account. -/
def entB1 : BlogPostEntry := { sns_id := "b@x.c", sns_pw := "", sns_upload_cont := {}, index := 1 }

/-- Third job, first account again. -/
def entA2 : BlogPostEntry := { sns_id := "a@x.c", sns_pw := "", sns_upload_cont := {}, index := 2 }

/-- A successful result whose job carries one secret. -/
def resultSecretX : PostResult :=
  { entry := { sns_id := "user@example.com", sns_pw := "hunter2-x", sns_upload_cont := {}, index := 0 }
    success := true }

/-- The same result from a run where the job carried a different secret. -/
def resultSecretY : PostResult :=
  { entry := { sns_id := "user@example.com", sns_pw := "hunter2-y", sns_upload_cont := {}, index := 0 }
    success := true }

/-! # Theorems -/

/-! ## Tag normalization (C9) -/

theorem get_tags_eq_spec (c : BlogContent) : c.get_tags = getTagsSpec c.site_tag := by
  by_cases h : c.site_tag = ""
  · rw [BlogContent.get_tags, if_pos h, h]
    decide
  · rw [BlogContent.get_tags, if_neg h]
    rfl

/-- Claim C9: `get_tags` splits the tag field on commas, trims surrounding
whitespace from each piece, drops empty pieces and preserves the order of
the rest; `"tag1, tag2 ,tag3,"` yields exactly `["tag1", "tag2", "tag3"]`
and an empty field yields `[]`. -/
theorem get_tags_normalizes :
    (∀ c : BlogContent, c.get_tags = getTagsSpec c.site_tag)
    ∧ BlogContent.get_tags { site_tag := "tag1, tag2 ,tag3," } = ["tag1", "tag2", "tag3"]
    ∧ BlogContent.get_tags { site_tag := "" } = [] :=
  ⟨get_tags_eq_spec, by decide, by decide⟩

/-! ## Batch report counters (C2) -/

theorem batchInv_add_result {b : BatchPostResult} (hb : batchInv b) (r : PostResult) :
    batchInv (b.add_result r) := by
  obtain ⟨h1, h2⟩ := hb
  constructor
  · cases hr : r.success <;> simp [BatchPostResult.add_result, hr, h1] <;> omega
  · simp [BatchPostResult.add_result, h2]

theorem batchInv_runOps (ops : List BatchOp) :
    ∀ b : BatchPostResult, batchInv b → batchInv (runOps b ops) := by
  induction ops with
  | nil => intro b hb; exact hb
  | cons op rest ih =>
    intro b hb
    cases op with
    | addResultOp r => exact ih _ (batchInv_add_result hb r)
    | addSkippedOp =>
      apply ih
      obtain ⟨h1, h2⟩ := hb
      exact ⟨h1, h2⟩

/-- Claim C2: after any sequence of `add_result` / `add_skipped` calls on a
fresh `BatchPostResult`, `total = successful + failed` and
`total = len(results)`; each `add_result` appends exactly one result and
increments `total` together with exactly one of `successful`/`failed`
(leaving `skipped` alone), and `add_skipped` changes only `skipped`. -/
theorem batch_report_invariant :
    (∀ ops : List BatchOp, batchInv (runOps emptyBatch ops))
    ∧ (∀ (b : BatchPostResult) (r : PostResult),
        (b.add_result r).results = b.results ++ [r]
        ∧ (b.add_result r).total = b.total + 1
        ∧ (b.add_result r).successful = b.successful + (if r.success then 1 else 0)
        ∧ (b.add_result r).failed = b.failed + (if r.success then 0 else 1)
        ∧ (b.add_result r).skipped = b.skipped)
    ∧ (∀ b : BatchPostResult, b.add_skipped = { b with skipped := b.skipped + 1 }) := by
  refine ⟨fun ops => batchInv_runOps ops emptyBatch ⟨rfl, rfl⟩, fun b r => ?_, fun b => rfl⟩
  cases hr : r.success <;> simp [BatchPostResult.add_result, hr]

/-! ## Secret-free reports (C6) -/

theorem to_dict_samePublic {r1 r2 : PostResult} (h : samePublicResult r1 r2) :
    r1.to_dict = r2.to_dict := by
  obtain ⟨⟨hid, hidx, hc⟩, hs, he, hu, ht⟩ := h
  simp [PostResult.to_dict, hid, hidx, hc, hs, he, hu, ht]

theorem map_to_dict_congr :
    ∀ {l1 l2 : List PostResult}, List.Forall₂ samePublicResult l1 l2 →
      l1.map PostResult.to_dict = l2.map PostResult.to_dict := by
  intro l1 l2 h
  induction h with
  | nil => rfl
  | cons hr _ ih => simp [ih, to_dict_samePublic hr]

/-- Claim C6: a job's secret never appears in the report: `PostResult.to_dict`
and `BatchPostResult.to_dict` are identical for any two runs that differ only
in a job's secret value but had the same outcomes, and the only rendering of
a secret anywhere is a mask of at most 8 characters. -/
theorem report_never_contains_secret :
    (∀ r1 r2 : PostResult, samePublicResult r1 r2 → r1.to_dict = r2.to_dict)
    ∧ (∀ b1 b2 : BatchPostResult,
        b1.total = b2.total → b1.successful = b2.successful → b1.failed = b2.failed →
        b1.skipped = b2.skipped → List.Forall₂ samePublicResult b1.results b2.results →
        b1.to_dict = b2.to_dict)
    ∧ (∀ id pw source, ((mkResolvedCredentials id pw source).masked_pw).toList.length ≤ 8)
    ∧ (∀ pw, (mask_password pw).toList.length ≤ 8) := by
  refine ⟨fun r1 r2 h => to_dict_samePublic h, ?_, ?_, ?_⟩
  · intro b1 b2 ht hs hf hk hr
    simp [BatchPostResult.to_dict, ht, hs, hf, hk, map_to_dict_congr hr]
  · intro id pw source
    by_cases h : pw = ""
    · simp [mkResolvedCredentials, h]
    · simp [mkResolvedCredentials, h]
  · intro pw
    by_cases h : pw = ""
    · simp [mask_password, h]
    · simp [mask_password, h]

/-- Witness for C6 at a concrete input: two results that differ only in the
job's secret produce the same report dictionary. -/
theorem report_never_contains_secret_witness :
    PostResult.to_dict resultSecretX = PostResult.to_dict resultSecretY :=
  report_never_contains_secret.1 resultSecretX resultSecretY
    ⟨⟨rfl, rfl, rfl⟩, rfl, rfl, rfl, rfl⟩

/-! ## Credential resolution (C4, C10) -/

/-- Counterexample for C4 as stated: with no environment override, a secrets
store mapping the account to the empty string, and no inline secret, no
source yields a non-empty secret, yet `resolve_password` returns provenance
`secrets_file`, not `none`. -/
theorem resolve_password_provenance_counterexample :
    noEnv (env_var_name entryNoPw.sns_id) = none
    ∧ List.lookup entryNoPw.sns_id emptyValueCM.secretsCache = some ""
    ∧ entryNoPw.sns_pw = ""
    ∧ (resolve_password noEnv emptyValueCM entryNoPw).sns_pw = ""
    ∧ (resolve_password noEnv emptyValueCM entryNoPw).source = "secrets_file"
    ∧ ¬(resolve_password noEnv emptyValueCM entryNoPw).source = "none" := by
  decide

/-- Claim C4 (amended): `resolve_password` follows the fixed precedence —
environment override when the variable's value is non-empty, then the
secrets store by key presence alone (its stored value is taken even when
empty), then the job's inline secret when non-empty — and when no source
applies it returns provenance `none` with an empty secret rather than
raising; equivalently, it coincides with the first-applicable-source
resolver `resolveSpec`. -/
theorem resolve_password_eq_spec (env : ProcEnv) (cm : CredentialManager)
    (e : BlogPostEntry) : resolve_password env cm e = resolveSpec env cm e := by
  unfold resolve_password resolveSpec
  cases henv : env (env_var_name e.sns_id) with
  | some p =>
    by_cases hp : p = ""
    · cases hlook : List.lookup e.sns_id cm.secretsCache with
      | some v => simp [henv, hp, hlook, sourceYields, List.findSome?]
      | none =>
        by_cases hpw : e.sns_pw = "" <;>
          simp [henv, hp, hlook, hpw, sourceYields, List.findSome?]
    · simp [henv, hp, sourceYields, List.findSome?]
  | none =>
    cases hlook : List.lookup e.sns_id cm.secretsCache with
    | some v => simp [henv, hlook, sourceYields, List.findSome?]
    | none =>
      by_cases hpw : e.sns_pw = "" <;>
        simp [henv, hlook, hpw, sourceYields, List.findSome?]

/-- Claim C10: the environment override applies only when non-empty, but the
secrets store applies by key presence alone — whenever the account id is a
key of the store, the stored value is returned with provenance
`secrets_file`, even when that value is empty and the job carries a
non-empty inline secret; such a job therefore resolves to an empty secret. -/
theorem secrets_store_key_presence_wins (env : ProcEnv) (cm : CredentialManager)
    (e : BlogPostEntry) (v : String)
    (henv : (env (env_var_name e.sns_id)).getD "" = "")
    (hkey : List.lookup e.sns_id cm.secretsCache = some v) :
    resolve_password env cm e = mkResolvedCredentials e.sns_id v "secrets_file"
    ∧ (v = "" → (resolve_password env cm e).sns_pw = "") := by
  have h1 : resolve_password env cm e = mkResolvedCredentials e.sns_id v "secrets_file" := by
    unfold resolve_password
    simp [henv, hkey]
  refine ⟨h1, fun hv => ?_⟩
  rw [h1, hv]
  rfl

/-- Witness for C10 at a concrete input: the store maps the account to `""`,
the job carries the non-empty inline secret `"inline-secret"`, and the
resolution still returns the empty stored value with provenance
`secrets_file`. -/
theorem secrets_store_key_presence_wins_witness :
    resolve_password noEnv emptyValueCM entryInlinePw
        = mkResolvedCredentials "user@example.com" "" "secrets_file"
    ∧ (resolve_password noEnv emptyValueCM entryInlinePw).sns_pw = "" := by
  have h := secrets_store_key_presence_wins noEnv emptyValueCM entryInlinePw ""
    (by decide) (by decide)
  exact ⟨h.1, h.2 rfl⟩

/-! ## Login classification and manual-login wait (C3) -/

theorem wait_for_manual_login_eq_any (fuel : Nat) :
    ∀ urls : Nat → String,
      wait_for_manual_login urls fuel
        = (List.range fuel).any (fun i => !(strContains (urls i) "nidlogin")) := by
  induction fuel with
  | zero => intro urls; rfl
  | succ n ih =>
    intro urls
    rw [wait_for_manual_login, List.range_succ_eq_map]
    cases hc : strContains (urls 0) "nidlogin" <;>
      simp [hc, ih (fun i => urls (i + 1)), Function.comp_def]

/-- Counterexample for C3 as stated: after submitting on a CAPTCHA /
bot-challenge surface the check fails, but `login` does not fail
immediately — it still enters the manual-login wait. -/
theorem login_captcha_enters_manual_wait :
    strContains (pyLower captchaWorld.postSubmitUrl) "captcha" = true
    ∧ check_login_success captchaWorld.postSubmitUrl = false
    ∧ (login_run captchaWorld).2 = true := by
  refine ⟨by decide, by decide, ?_⟩
  rfl

/-- Claim C3 (amended): the post-submit location is classified by
`_check_login_success` — success exactly when it is neither a CAPTCHA nor a
bot-challenge surface and has left the login surface; in every other case
(including CAPTCHA and bot-challenge surfaces) `login` enters the bounded
manual-login wait, which polls the location every 2 s for up to 300 s
(150 polls), succeeding the moment the login surface is left and failing
on timeout. -/
theorem login_classification (w : LoginWorld) :
    check_login_success w.postSubmitUrl
        = (!(strContains (pyLower w.postSubmitUrl) "captcha")
            && !(strContains (pyLower w.postSubmitUrl) "protect")
            && !(strContains w.postSubmitUrl "nidlogin"))
    ∧ (login_run w).2 = !(w.fieldsFound && check_login_success w.postSubmitUrl)
    ∧ (login_run w).1
        = ((w.fieldsFound && check_login_success w.postSubmitUrl)
            || (List.range manualLoginPolls).any
                (fun i => !(strContains (w.pollUrls i) "nidlogin"))) := by
  refine ⟨?_, ?_, ?_⟩
  · unfold check_login_success
    cases h1 : strContains (pyLower w.postSubmitUrl) "captcha" <;>
      cases h2 : strContains (pyLower w.postSubmitUrl) "protect" <;>
        cases h3 : strContains w.postSubmitUrl "nidlogin" <;> simp [h1, h2, h3]
  · unfold login_run
    cases h : w.fieldsFound && check_login_success w.postSubmitUrl <;> simp [h]
  · unfold login_run
    cases h : w.fieldsFound && check_login_success w.postSubmitUrl <;>
      simp [h, wait_for_manual_login_eq_any]

/-! ## The write_post retry loop (C1) -/

theorem write_post_from_count_le :
    ∀ (fuel start : Nat) (env : Nat → Attempt),
      (write_post_from env start fuel).2 ≤ fuel := by
  intro fuel
  induction fuel with
  | zero => intro start env; simp [write_post_from]
  | succ n ih =>
    intro start env
    rw [write_post_from]
    cases h : attemptSucceeds (env start) <;> simp [h]
    · exact ih (start + 1) env

theorem write_post_from_eq_any :
    ∀ (fuel start : Nat) (env : Nat → Attempt),
      (write_post_from env start fuel).1
        = (List.range fuel).any (fun i => attemptSucceeds (env (start + i))) := by
  intro fuel
  induction fuel with
  | zero => intro start env; rfl
  | succ n ih =>
    intro start env
    rw [write_post_from, List.range_succ_eq_map]
    cases h : attemptSucceeds (env start) <;>
      simp [h, ih (start + 1) env, Function.comp_def, Nat.add_comm, Nat.add_assoc,
        Nat.add_left_comm]

theorem write_post_from_first_success :
    ∀ (i fuel start : Nat) (env : Nat → Attempt), i < fuel →
      attemptSucceeds (env (start + i)) = true →
      (∀ j, j < i → attemptSucceeds (env (start + j)) = false) →
      write_post_from env start fuel = (true, i + 1) := by
  intro i
  induction i with
  | zero =>
    intro fuel start env hlt hs _
    cases fuel with
    | zero => omega
    | succ f =>
      rw [write_post_from]
      simp only [Nat.add_zero] at hs
      simp [hs]
  | succ n ih =>
    intro fuel start env hlt hs hj
    cases fuel with
    | zero => omega
    | succ f =>
      have h0 : attemptSucceeds (env start) = false := by
        have h := hj 0 (Nat.succ_pos n)
        simpa using h
      have hs2 : attemptSucceeds (env (start + 1 + n)) = true := by
        have harith : start + 1 + n = start + (n + 1) := by omega
        rw [harith]; exact hs
      have hj2 : ∀ j, j < n → attemptSucceeds (env (start + 1 + j)) = false := by
        intro j hjn
        have harith : start + 1 + j = start + (j + 1) := by omega
        rw [harith]
        exact hj (j + 1) (by omega)
      rw [write_post_from, h0]
      simp [ih f (start + 1) env (by omega) hs2 hj2]

theorem write_post_from_all_fail :
    ∀ (fuel start : Nat) (env : Nat → Attempt),
      (∀ j, j < fuel → attemptSucceeds (env (start + j)) = false) →
      write_post_from env start fuel = (false, fuel) := by
  intro fuel
  induction fuel with
  | zero => intro start env _; rfl
  | succ n ih =>
    intro start env hj
    have h0 : attemptSucceeds (env start) = false := by
      have h := hj 0 (Nat.succ_pos n)
      simpa using h
    have hj2 : ∀ j, j < n → attemptSucceeds (env (start + 1 + j)) = false := by
      intro j hjn
      have harith : start + 1 + j = start + (j + 1) := by omega
      rw [harith]
      exact hj (j + 1) (by omega)
    rw [write_post_from, h0]
    simp [ih (start + 1) env hj2]

theorem post_single_entry (aenv : AccountEnv) (mr : Nat) (e : BlogPostEntry) :
    (post_single aenv mr e).entry = e := by
  unfold post_single
  split <;> rfl

theorem post_account_entries_entries (aenv : AccountEnv) (mr : Nat) (acct : String)
    (creds : ResolvedCredentials) (entries : List BlogPostEntry) :
    ((post_account_entries aenv mr acct creds entries).1).map (fun r => r.entry) = entries := by
  unfold post_account_entries
  by_cases hc : aenv.createFails
  · simp [hc, unexpectedResult, Function.comp_def]
  · by_cases hl : aenv.loginSucceeds
    · simp [hc, hl, post_single_entry, Function.comp_def]
    · simp [hc, hl, loginFailedResult, Function.comp_def]

/-- Claim C1: `write_post` runs the whole pipeline at most
`max_retries + 1` times, returns `True` exactly when some attempt within
the bound fully succeeds (and does so as soon as the first such attempt
publishes and verifies), returns `False` only after all `max_retries + 1`
attempts failed, and `_post_single` / `_post_account_entries` produce
exactly one `PostResult` per job regardless of the internal attempt count. -/
theorem write_post_retry_bound :
    (∀ (env : Nat → Attempt) (max_retries : Nat),
        write_post_attempts env max_retries ≤ max_retries + 1)
    ∧ (∀ (env : Nat → Attempt) (max_retries : Nat),
        write_post env max_retries
          = (List.range (max_retries + 1)).any (fun i => attemptSucceeds (env i)))
    ∧ (∀ (env : Nat → Attempt) (max_retries i : Nat), i < max_retries + 1 →
        attemptSucceeds (env i) = true →
        ((List.range i).all fun j => !(attemptSucceeds (env j))) = true →
        write_post_from env 0 (max_retries + 1) = (true, i + 1))
    ∧ (∀ (env : Nat → Attempt) (max_retries : Nat),
        ((List.range (max_retries + 1)).all fun i => !(attemptSucceeds (env i))) = true →
        write_post_from env 0 (max_retries + 1) = (false, max_retries + 1))
    ∧ (∀ (aenv : AccountEnv) (mr : Nat) (acct : String) (creds : ResolvedCredentials)
        (entries : List BlogPostEntry),
        ((post_account_entries aenv mr acct creds entries).1).map (fun r => r.entry)
          = entries) := by
  refine ⟨?_, ?_, ?_, ?_, post_account_entries_entries⟩
  · intro env mr
    exact write_post_from_count_le (mr + 1) 0 env
  · intro env mr
    have h := write_post_from_eq_any (mr + 1) 0 env
    simpa [write_post] using h
  · intro env mr i hlt hs hall
    have hj : ∀ j, j < i → attemptSucceeds (env (0 + j)) = false := by
      intro j hji
      simp only [List.all_eq_true, List.mem_range, Bool.not_eq_true'] at hall
      simpa using hall j hji
    exact write_post_from_first_success i (mr + 1) 0 env hlt (by simpa using hs) hj
  · intro env mr hall
    have hj : ∀ j, j < mr + 1 → attemptSucceeds (env (0 + j)) = false := by
      intro j hji
      simp only [List.all_eq_true, List.mem_range, Bool.not_eq_true'] at hall
      simpa using hall j hji
    exact write_post_from_all_fail (mr + 1) 0 env hj

/-- Witness for C1 at Scenario D: attempts 0 and 1 fail, attempt 2 succeeds,
`max_retries = 2` — `write_post` returns `True` after exactly 3 attempts. -/
theorem write_post_retry_bound_witness :
    write_post_from scenarioDEnv 0 3 = (true, 3) :=
  write_post_retry_bound.2.2.1 scenarioDEnv 2 2 (by decide) (by decide) (by decide)

/-! ## Guaranteed session teardown (C7) -/

theorem post_account_entries_events (aenv : AccountEnv) (mr : Nat) (acct : String)
    (creds : ResolvedCredentials) (entries : List BlogPostEntry) :
    (post_account_entries aenv mr acct creds entries).2 = [Ev.closed acct]
    ∨ (post_account_entries aenv mr acct creds entries).2
        = [Ev.created acct, Ev.loginCall acct, Ev.closed acct] := by
  unfold post_account_entries
  by_cases hc : aenv.createFails
  · left; simp [hc]
  · by_cases hl : aenv.loginSucceeds <;> right <;> simp [hc, hl]

theorem groupOutcome_created_le_closed (oenv : OrchEnv) (cm : CredentialManager)
    (kg : String × List BlogPostEntry) (acct : String) :
    ((groupOutcome oenv cm kg).2).count (Ev.created acct)
      ≤ ((groupOutcome oenv cm kg).2).count (Ev.closed acct) := by
  obtain ⟨k, g⟩ := kg
  cases g with
  | nil => simp [groupOutcome]
  | cons first rest =>
    by_cases hcred : (resolve_password oenv.procEnv cm first).sns_pw = ""
    · simp [groupOutcome, hcred]
    · simp only [groupOutcome]
      rw [if_neg hcred]
      rcases post_account_entries_events (oenv.accounts k) oenv.maxRetries k
          (resolve_password oenv.procEnv cm first) (first :: rest) with h | h <;>
        rw [h] <;>
          by_cases hk : k = acct <;>
            simp [hk, List.count_cons, List.count_nil]

theorem allGroupEvents_created_le_closed (oenv : OrchEnv) (cm : CredentialManager)
    (acct : String) :
    ∀ gs : List (String × List BlogPostEntry),
      ((allGroupEvents oenv cm gs).count (Ev.created acct))
        ≤ ((allGroupEvents oenv cm gs).count (Ev.closed acct)) := by
  intro gs
  induction gs with
  | nil => simp [allGroupEvents]
  | cons kg rest ih =>
    rw [allGroupEvents, List.count_append, List.count_append]
    exact Nat.add_le_add (groupOutcome_created_le_closed oenv cm kg acct) ih

/-- Claim C7: `BrowserAdapter.close` never raises, for any driver state and
any behaviour of `driver.quit()`, always leaving `driver = None`; the
per-group event trace of `_post_account_entries` always ends with exactly
one close of that account's session, on every exit path; and globally every
browser created during `post_all` is closed. -/
theorem session_teardown_guaranteed :
    (∀ (st : BrowserAdapterState) (q : Except String Unit),
        browser_close st q = Except.ok { driver := none })
    ∧ (∀ (aenv : AccountEnv) (mr : Nat) (acct : String) (creds : ResolvedCredentials)
        (entries : List BlogPostEntry),
        ((post_account_entries aenv mr acct creds entries).2).count (Ev.closed acct) = 1
        ∧ ((post_account_entries aenv mr acct creds entries).2).getLast?
            = some (Ev.closed acct))
    ∧ (∀ (oenv : OrchEnv) (cm : CredentialManager) (entries : List BlogPostEntry)
        (fe : Option String) (ai : Option Nat) (acct : String),
        ((post_all oenv cm entries fe ai).2).count (Ev.created acct)
          ≤ ((post_all oenv cm entries fe ai).2).count (Ev.closed acct)) := by
  refine ⟨?_, ?_, ?_⟩
  · intro st q
    obtain ⟨d⟩ := st
    cases d <;> cases q <;> rfl
  · intro aenv mr acct creds entries
    rcases post_account_entries_events aenv mr acct creds entries with h | h <;>
      rw [h] <;> constructor <;> simp [List.count_cons, List.count_nil]
  · intro oenv cm entries fe ai acct
    unfold post_all
    by_cases h : (filter_entries entries fe ai).length = 0
    · simp [h]
    · simp only [h, if_false, ite_false]
      exact allGroupEvents_created_le_closed oenv cm acct _

/-! ## Grouping infrastructure (for C5, C8) -/

theorem groupKeys_nil : groupKeys [] = [] := rfl

theorem groupKeys_cons (k : String) (g : List BlogPostEntry)
    (rest : List (String × List BlogPostEntry)) :
    groupKeys ((k, g) :: rest) = k :: groupKeys rest := rfl

theorem groupKeys_addToGroups (gs : List (String × List BlogPostEntry)) (e : BlogPostEntry) :
    groupKeys (addToGroups gs e)
      = if e.sns_id ∈ groupKeys gs then groupKeys gs else groupKeys gs ++ [e.sns_id] := by
  induction gs with
  | nil => simp [addToGroups, groupKeys]
  | cons kg rest ih =>
    obtain ⟨k, g⟩ := kg
    by_cases hk : k = e.sns_id
    · rw [addToGroups, if_pos hk]
      have hmem : e.sns_id ∈ groupKeys ((k, g) :: rest) := by
        rw [groupKeys_cons, ← hk]
        exact List.mem_cons_self k _
      rw [if_pos hmem]
      rfl
    · rw [addToGroups, if_neg hk]
      have hne : e.sns_id ≠ k := fun hh => hk hh.symm
      have hcond : e.sns_id ∈ groupKeys ((k, g) :: rest) ↔ e.sns_id ∈ groupKeys rest := by
        rw [groupKeys_cons]
        simp [hne]
      by_cases hmem : e.sns_id ∈ groupKeys rest
      · rw [if_pos (hcond.mpr hmem), groupKeys_cons, groupKeys_cons, ih, if_pos hmem]
      · rw [if_neg (fun hh => hmem (hcond.mp hh)), groupKeys_cons, groupKeys_cons, ih,
          if_neg hmem]
        rfl

theorem groupKeys_nodup_addToGroups {gs : List (String × List BlogPostEntry)}
    (h : (groupKeys gs).Nodup) (e : BlogPostEntry) :
    (groupKeys (addToGroups gs e)).Nodup := by
  rw [groupKeys_addToGroups]
  by_cases hmem : e.sns_id ∈ groupKeys gs
  · simpa [hmem] using h
  · simp [hmem, List.nodup_append, h]

theorem groupKeys_nodup_foldl :
    ∀ (l : List BlogPostEntry) (gs : List (String × List BlogPostEntry)),
      (groupKeys gs).Nodup → (groupKeys (l.foldl addToGroups gs)).Nodup := by
  intro l
  induction l with
  | nil => intro gs h; simpa using h
  | cons e rest ih =>
    intro gs h
    rw [List.foldl_cons]
    exact ih _ (groupKeys_nodup_addToGroups h e)

theorem group_by_account_keys_nodup (l : List BlogPostEntry) :
    (groupKeys (group_by_account l)).Nodup :=
  groupKeys_nodup_foldl l [] (by simp [groupKeys])

theorem groupVal_of_not_mem :
    ∀ (gs : List (String × List BlogPostEntry)) (k : String),
      k ∉ groupKeys gs → groupVal gs k = [] := by
  intro gs
  induction gs with
  | nil => intro k _; rfl
  | cons kg rest ih =>
    obtain ⟨k1, g⟩ := kg
    intro k hk
    simp only [groupKeys, List.map_cons, List.mem_cons, not_or] at hk
    rw [groupVal, if_neg (fun hh => hk.1 hh.symm), ih k (by simpa [groupKeys] using hk.2)]
    rfl

theorem groupVal_addToGroups :
    ∀ {gs : List (String × List BlogPostEntry)}, (groupKeys gs).Nodup →
      ∀ (e : BlogPostEntry) (k : String),
        groupVal (addToGroups gs e) k
          = groupVal gs k ++ (if e.sns_id = k then [e] else []) := by
  intro gs
  induction gs with
  | nil =>
    intro _ e k
    simp [addToGroups, groupVal]
  | cons kg rest ih =>
    obtain ⟨k1, g⟩ := kg
    intro hnd e k
    have hnd2 : (k1 :: groupKeys rest).Nodup := hnd
    have h1 : k1 ∉ groupKeys rest := (List.nodup_cons.mp hnd2).1
    have h2 : (groupKeys rest).Nodup := (List.nodup_cons.mp hnd2).2
    by_cases hk1 : k1 = e.sns_id
    · rw [addToGroups, if_pos hk1]
      by_cases hkk : k1 = k
      · have hek : e.sns_id = k := hk1 ▸ hkk
        have hrest : groupVal rest k = [] := groupVal_of_not_mem rest k (hkk ▸ h1)
        simp [groupVal, hkk, hek, hrest]
      · have hek : e.sns_id ≠ k := fun hh => hkk (hk1.trans hh)
        simp [groupVal, hkk, hek]
    · rw [addToGroups, if_neg hk1]
      rw [groupVal, groupVal, ih h2 e k, List.append_assoc]

theorem groupVal_foldl :
    ∀ (l : List BlogPostEntry) (gs : List (String × List BlogPostEntry)),
      (groupKeys gs).Nodup → ∀ k,
        groupVal (l.foldl addToGroups gs) k
          = groupVal gs k ++ l.filter (fun e => e.sns_id == k) := by
  intro l
  induction l with
  | nil => intro gs _ k; simp
  | cons e rest ih =>
    intro gs hnd k
    rw [List.foldl_cons, ih _ (groupKeys_nodup_addToGroups hnd e) k,
      groupVal_addToGroups hnd e k, List.append_assoc]
    by_cases he : e.sns_id = k
    · simp [List.filter_cons, he]
    · simp [List.filter_cons, he]

theorem groupVal_group_by_account (l : List BlogPostEntry) (k : String) :
    groupVal (group_by_account l) k = l.filter (fun e => e.sns_id == k) := by
  have h := groupVal_foldl l [] (by simp [groupKeys]) k
  simpa [group_by_account, groupVal] using h

theorem groupVal_of_mem :
    ∀ {gs : List (String × List BlogPostEntry)} {k : String} {g : List BlogPostEntry},
      (groupKeys gs).Nodup → (k, g) ∈ gs → groupVal gs k = g := by
  intro gs
  induction gs with
  | nil => intro k g _ hmem; cases hmem
  | cons kg rest ih =>
    intro k g hnd hmem
    obtain ⟨k1, g1⟩ := kg
    have hnd2 : (k1 :: groupKeys rest).Nodup := hnd
    have h1 : k1 ∉ groupKeys rest := (List.nodup_cons.mp hnd2).1
    have h2 : (groupKeys rest).Nodup := (List.nodup_cons.mp hnd2).2
    rcases List.mem_cons.mp hmem with heq | hmem2
    · obtain ⟨hk, hg⟩ := Prod.mk.injEq .. ▸ heq
      subst hk; subst hg
      rw [groupVal, if_pos rfl, groupVal_of_not_mem rest k h1]
      simp
    · have hkmem : k ∈ groupKeys rest := by
        simpa [groupKeys] using List.mem_map_of_mem Prod.fst hmem2
      have hk : k1 ≠ k := fun hh => h1 (hh ▸ hkmem)
      rw [groupVal, if_neg hk, ih h2 hmem2]
      rfl

theorem wfGroups_addToGroups :
    ∀ {gs : List (String × List BlogPostEntry)}, wfGroups gs →
      ∀ e : BlogPostEntry, wfGroups (addToGroups gs e) := by
  intro gs
  induction gs with
  | nil =>
    intro _ e kg hkg e2 he2
    simp [addToGroups] at hkg
    subst hkg
    simp at he2
    simp [he2]
  | cons kg0 rest ih =>
    intro hwf e kg hkg e2 he2
    obtain ⟨k, g⟩ := kg0
    by_cases hk : k = e.sns_id
    · rw [addToGroups, if_pos hk] at hkg
      rcases List.mem_cons.mp hkg with heq | hmem2
      · subst heq
        rcases List.mem_append.mp he2 with hold | hnew
        · exact hwf (k, g) (List.mem_cons_self _ _) e2 hold
        · simp at hnew
          simp [hnew, hk]
      · exact hwf kg (List.mem_cons_of_mem _ hmem2) e2 he2
    · rw [addToGroups, if_neg hk] at hkg
      rcases List.mem_cons.mp hkg with heq | hmem2
      · subst heq
        exact hwf (k, g) (List.mem_cons_self _ _) e2 he2
      · exact ih (fun kg2 h2 => hwf kg2 (List.mem_cons_of_mem _ h2)) e kg hmem2 e2 he2

theorem wfGroups_foldl :
    ∀ (l : List BlogPostEntry) (gs : List (String × List BlogPostEntry)),
      wfGroups gs → wfGroups (l.foldl addToGroups gs) := by
  intro l
  induction l with
  | nil => intro gs h; simpa using h
  | cons e rest ih =>
    intro gs h
    rw [List.foldl_cons]
    exact ih _ (wfGroups_addToGroups h e)

theorem wfGroups_group_by_account (l : List BlogPostEntry) :
    wfGroups (group_by_account l) :=
  wfGroups_foldl l [] (by intro kg hkg; cases hkg)

/-! ## Report results decomposition (for C5, C8) -/

theorem foldl_add_result_results :
    ∀ (rs : List PostResult) (b : BatchPostResult),
      (rs.foldl BatchPostResult.add_result b).results = b.results ++ rs := by
  intro rs
  induction rs with
  | nil => intro b; simp
  | cons r rest ih =>
    intro b
    rw [List.foldl_cons, ih]
    simp [BatchPostResult.add_result]

theorem post_all_results (oenv : OrchEnv) (cm : CredentialManager)
    (entries : List BlogPostEntry) (fe : Option String) (ai : Option Nat) :
    (post_all oenv cm entries fe ai).1.results
      = if (filter_entries entries fe ai).length = 0 then []
        else allGroupResults oenv cm (group_by_account (filter_entries entries fe ai)) := by
  unfold post_all
  by_cases h : (filter_entries entries fe ai).length = 0
  · simp [h, emptyBatch]
  · simp [h, foldl_add_result_results, emptyBatch]

theorem groupOutcome_results_entries (oenv : OrchEnv) (cm : CredentialManager)
    (k : String) (g : List BlogPostEntry) :
    ((groupOutcome oenv cm (k, g)).1).map (fun r => r.entry) = g := by
  cases g with
  | nil => rfl
  | cons first rest =>
    by_cases hcred : (resolve_password oenv.procEnv cm first).sns_pw = ""
    · simp [groupOutcome, hcred, noCredResult, Function.comp_def]
    · simp only [groupOutcome]
      rw [if_neg hcred]
      exact post_account_entries_entries ..

theorem groupOutcome_result_entry_mem (oenv : OrchEnv) (cm : CredentialManager)
    {k : String} {g : List BlogPostEntry} {r : PostResult}
    (hr : r ∈ (groupOutcome oenv cm (k, g)).1) : r.entry ∈ g := by
  have hmap := groupOutcome_results_entries oenv cm k g
  exact hmap ▸ List.mem_map_of_mem (fun r => r.entry) hr

theorem groupOutcome_filter_of_ne (oenv : OrchEnv) (cm : CredentialManager)
    {k : String} {g : List BlogPostEntry} {acct : String}
    (hwf : ∀ e ∈ g, e.sns_id = k) (hne : k ≠ acct) :
    ((groupOutcome oenv cm (k, g)).1).filter (fun r => r.entry.sns_id == acct) = [] := by
  apply List.filter_eq_nil_iff.mpr
  intro r hr
  have hmem : r.entry ∈ g := groupOutcome_result_entry_mem oenv cm hr
  simp [hwf _ hmem, hne]

theorem groupOutcome_filter_of_eq (oenv : OrchEnv) (cm : CredentialManager)
    {g : List BlogPostEntry} {acct : String} (hwf : ∀ e ∈ g, e.sns_id = acct) :
    ((groupOutcome oenv cm (acct, g)).1).filter (fun r => r.entry.sns_id == acct)
      = (groupOutcome oenv cm (acct, g)).1 := by
  apply List.filter_eq_self.mpr
  intro r hr
  have hmem : r.entry ∈ g := groupOutcome_result_entry_mem oenv cm hr
  simp [hwf _ hmem]

theorem groupOutcome_filter_map (oenv : OrchEnv) (cm : CredentialManager)
    {k : String} {g : List BlogPostEntry} (acct : String)
    (hwf : ∀ e ∈ g, e.sns_id = k) :
    (((groupOutcome oenv cm (k, g)).1).filter
        (fun r => r.entry.sns_id == acct)).map (fun r => r.entry)
      = if k = acct then g else [] := by
  by_cases hk : k = acct
  · subst hk
    rw [if_pos rfl, groupOutcome_filter_of_eq oenv cm hwf,
      groupOutcome_results_entries]
  · rw [if_neg hk, groupOutcome_filter_of_ne oenv cm hwf hk]
    rfl

theorem allGroupResults_filter_map (oenv : OrchEnv) (cm : CredentialManager)
    (acct : String) :
    ∀ gs : List (String × List BlogPostEntry), wfGroups gs →
      (((allGroupResults oenv cm gs).filter
          (fun r => r.entry.sns_id == acct)).map (fun r => r.entry))
        = groupVal gs acct := by
  intro gs
  induction gs with
  | nil => intro _; rfl
  | cons kg rest ih =>
    intro hwf
    obtain ⟨k, g⟩ := kg
    rw [allGroupResults, List.filter_append, List.map_append,
      groupOutcome_filter_map oenv cm acct (hwf (k, g) (List.mem_cons_self _ _)),
      ih (fun kg2 h2 => hwf kg2 (List.mem_cons_of_mem _ h2)), groupVal]

/-! ## Result ordering (C8) -/

/-- Counterexample for C8 as stated: three jobs of two interleaved accounts
(indices 0, 1, 2 with accounts a, b, a) produce report results in index
order 0, 2, 1 — grouping by account reorders across accounts, so the
report's results are not globally in increasing original-index order. -/
theorem post_order_counterexample :
    ((post_all bareOrchEnv emptyCM [entA0, entB1, entA2] none none).1.results).map
        (fun r => r.entry.index) = [0, 2, 1]
    ∧ ¬ List.Pairwise (fun r1 r2 => r1.entry.index < r2.entry.index)
        (post_all bareOrchEnv emptyCM [entA0, entB1, entA2] none none).1.results := by
  constructor
  · decide
  · decide

/-- Claim C8 (amended): within each account, the report preserves the
original job order — for every account id, the sub-sequence of the report's
results whose entries belong to that account is exactly the account's
sub-sequence of the filtered input, in original order (the global result
order is grouped by account, not globally index-sorted). -/
theorem post_order_within_account (oenv : OrchEnv) (cm : CredentialManager)
    (entries : List BlogPostEntry) (fe : Option String) (ai : Option Nat)
    (acct : String) :
    (((post_all oenv cm entries fe ai).1.results).filter
        (fun r => r.entry.sns_id == acct)).map (fun r => r.entry)
      = (filter_entries entries fe ai).filter (fun e => e.sns_id == acct) := by
  rw [post_all_results]
  by_cases h : (filter_entries entries fe ai).length = 0
  · have hnil : filter_entries entries fe ai = [] := List.length_eq_zero.mp h
    simp [h, hnil]
  · rw [if_neg h, allGroupResults_filter_map oenv cm acct _ (wfGroups_group_by_account _),
      groupVal_group_by_account]

/-! ## Credential-missing groups (C5) -/

theorem allGroupResults_filter_not_key (oenv : OrchEnv) (cm : CredentialManager)
    (acct : String) :
    ∀ gs : List (String × List BlogPostEntry), wfGroups gs → acct ∉ groupKeys gs →
      (allGroupResults oenv cm gs).filter (fun r => r.entry.sns_id == acct) = [] := by
  intro gs
  induction gs with
  | nil => intro _ _; rfl
  | cons kg rest ih =>
    intro hwf hkey
    obtain ⟨k, g⟩ := kg
    rw [groupKeys_cons] at hkey
    simp only [List.mem_cons, not_or] at hkey
    rw [allGroupResults, List.filter_append,
      groupOutcome_filter_of_ne oenv cm (hwf (k, g) (List.mem_cons_self _ _))
        (fun hh => hkey.1 hh.symm),
      ih (fun kg2 h2 => hwf kg2 (List.mem_cons_of_mem _ h2)) hkey.2]
    rfl

theorem allGroupResults_filter_noCred (oenv : OrchEnv) (cm : CredentialManager)
    (acct : String) (first : BlogPostEntry) (rest : List BlogPostEntry) :
    ∀ gs : List (String × List BlogPostEntry), wfGroups gs → (groupKeys gs).Nodup →
      (acct, first :: rest) ∈ gs →
      (resolve_password oenv.procEnv cm first).sns_pw = "" →
      (allGroupResults oenv cm gs).filter (fun r => r.entry.sns_id == acct)
        = (first :: rest).map noCredResult := by
  intro gs
  induction gs with
  | nil => intro _ _ hmem _; cases hmem
  | cons kg tail ih =>
    intro hwf hnd hmem hcred
    obtain ⟨k, g⟩ := kg
    have hnd2 : (k :: groupKeys tail).Nodup := hnd
    have hknotin : k ∉ groupKeys tail := (List.nodup_cons.mp hnd2).1
    have hndtail : (groupKeys tail).Nodup := (List.nodup_cons.mp hnd2).2
    have hwftail : wfGroups tail := fun kg2 h2 => hwf kg2 (List.mem_cons_of_mem _ h2)
    rw [allGroupResults, List.filter_append]
    rcases List.mem_cons.mp hmem with heq | hmem2
    · have hk : acct = k := congrArg Prod.fst heq
      have hgg : (first :: rest : List BlogPostEntry) = g := congrArg Prod.snd heq
      subst hk
      subst hgg
      have hwfg : ∀ e ∈ first :: rest, e.sns_id = acct :=
        hwf (acct, first :: rest) (List.mem_cons_self _ _)
      rw [groupOutcome_filter_of_eq oenv cm hwfg,
        allGroupResults_filter_not_key oenv cm acct tail hwftail hknotin]
      have hres : (groupOutcome oenv cm (acct, first :: rest)).1
          = (first :: rest).map noCredResult := by
        simp [groupOutcome, hcred]
      rw [hres, List.append_nil]
    · have hkmem : acct ∈ groupKeys tail := by
        simpa [groupKeys] using List.mem_map_of_mem Prod.fst hmem2
      have hk : k ≠ acct := fun hh => hknotin (hh ▸ hkmem)
      rw [groupOutcome_filter_of_ne oenv cm
          (hwf (k, g) (List.mem_cons_self _ _)) hk,
        ih hwftail hndtail hmem2 hcred]
      rfl

theorem groupOutcome_events_cases (oenv : OrchEnv) (cm : CredentialManager)
    (k : String) (g : List BlogPostEntry) :
    ∀ ev ∈ (groupOutcome oenv cm (k, g)).2,
      ev = Ev.created k ∨ ev = Ev.loginCall k ∨ ev = Ev.closed k := by
  intro ev hev
  cases g with
  | nil => cases hev
  | cons first rest =>
    by_cases hcred : (resolve_password oenv.procEnv cm first).sns_pw = ""
    · simp [groupOutcome, hcred] at hev
    · simp only [groupOutcome] at hev
      rw [if_neg hcred] at hev
      rcases post_account_entries_events (oenv.accounts k) oenv.maxRetries k
          (resolve_password oenv.procEnv cm first) (first :: rest) with h | h <;>
        rw [h] at hev
      · right; right; simpa using hev
      · simpa using hev

theorem no_events_for_account (oenv : OrchEnv) (cm : CredentialManager) (acct : String) :
    ∀ gs : List (String × List BlogPostEntry),
      (∀ kg ∈ gs, kg.1 = acct → (groupOutcome oenv cm kg).2 = []) →
      Ev.created acct ∉ allGroupEvents oenv cm gs
      ∧ Ev.loginCall acct ∉ allGroupEvents oenv cm gs := by
  intro gs
  induction gs with
  | nil => intro _; constructor <;> intro h <;> cases h
  | cons kg tail ih =>
    intro hcond
    obtain ⟨htl1, htl2⟩ := ih (fun kg2 h2 hk => hcond kg2 (List.mem_cons_of_mem _ h2) hk)
    obtain ⟨k, g⟩ := kg
    have hhead : ∀ ev ∈ (groupOutcome oenv cm (k, g)).2,
        ev ≠ Ev.created acct ∧ ev ≠ Ev.loginCall acct := by
      intro ev hev
      by_cases hk : k = acct
      · rw [hcond (k, g) (List.mem_cons_self _ _) hk] at hev
        cases hev
      · rcases groupOutcome_events_cases oenv cm k g ev hev with h | h | h <;>
          subst h <;> exact ⟨fun hh => hk (by injection hh), fun hh => hk (by injection hh)⟩
    rw [allGroupEvents]
    constructor <;> intro hmem <;> rcases List.mem_append.mp hmem with hl | hr
    · exact (hhead _ hl).1 rfl
    · exact htl1 hr
    · exact (hhead _ hl).2 rfl
    · exact htl2 hr

/-- Claim C5: for an account group whose resolved credential (taken from the
group's first job) has an empty secret, `post_all` records exactly one
failed `No credentials available` outcome per job of the group — and for no
other job — and never creates a browser or calls login for that account,
while still processing the remaining groups. -/
theorem credential_missing_skips_group (oenv : OrchEnv) (cm : CredentialManager)
    (entries : List BlogPostEntry) (fe : Option String) (ai : Option Nat)
    (acct : String) (first : BlogPostEntry) (rest : List BlogPostEntry)
    (hg : (acct, first :: rest) ∈ group_by_account (filter_entries entries fe ai))
    (hcred : (resolve_password oenv.procEnv cm first).sns_pw = "") :
    ((post_all oenv cm entries fe ai).1.results).filter
        (fun r => r.entry.sns_id == acct) = (first :: rest).map noCredResult
    ∧ Ev.created acct ∉ (post_all oenv cm entries fe ai).2
    ∧ Ev.loginCall acct ∉ (post_all oenv cm entries fe ai).2
    ∧ (∀ e : BlogPostEntry, (noCredResult e).success = false
        ∧ (noCredResult e).error_message = "No credentials available") := by
  have hne : ¬(filter_entries entries fe ai).length = 0 := by
    intro h
    rw [List.length_eq_zero.mp h] at hg
    cases hg
  have hnd := group_by_account_keys_nodup (filter_entries entries fe ai)
  have hwf := wfGroups_group_by_account (filter_entries entries fe ai)
  have hcond : ∀ kg ∈ group_by_account (filter_entries entries fe ai),
      kg.1 = acct → (groupOutcome oenv cm kg).2 = [] := by
    intro kg hkg hk1
    obtain ⟨k2, g2⟩ := kg
    dsimp at hk1
    subst hk1
    have h1 := groupVal_of_mem hnd hkg
    have h2 := groupVal_of_mem hnd hg
    rw [h1] at h2
    subst h2
    simp [groupOutcome, hcred]
  have hevents := no_events_for_account oenv cm acct _ hcond
  refine ⟨?_, ?_, ?_, fun e => ⟨rfl, rfl⟩⟩
  · rw [post_all_results, if_neg hne]
    exact allGroupResults_filter_noCred oenv cm acct first rest _ hwf hnd hg hcred
  · show Ev.created acct ∉ (post_all oenv cm entries fe ai).2
    unfold post_all
    rw [if_neg hne]  -- hmm: the if is on fes.length inside lets
    exact hevents.1
  · show Ev.loginCall acct ∉ (post_all oenv cm entries fe ai).2
    unfold post_all
    rw [if_neg hne]
    exact hevents.2

/-- Witness for C5 at a concrete input: one job with no resolvable secret —
the report contains exactly its failed outcome and the trace shows no
browser creation and no login call for its account. -/
theorem credential_missing_skips_group_witness :
    ((post_all bareOrchEnv emptyCM [entryNoPw] none none).1.results).filter
        (fun r => r.entry.sns_id == "user@example.com") = [noCredResult entryNoPw]
    ∧ Ev.created "user@example.com" ∉ (post_all bareOrchEnv emptyCM [entryNoPw] none none).2
    ∧ Ev.loginCall "user@example.com"
        ∉ (post_all bareOrchEnv emptyCM [entryNoPw] none none).2 := by
  have h := credential_missing_skips_group bareOrchEnv emptyCM [entryNoPw] none none
    "user@example.com" entryNoPw [] (by decide) (by decide)
  exact ⟨h.1, h.2.1, h.2.2.1⟩

end NaverBlog
